import Mathlib

/-!
Verification of the multiverse terminal client's event-dispatch and
state-reconciliation core, as a shallow embedding of `src/timeline.rs`,
`src/room.rs`, `src/app.rs` and the mode sub-models.

Machine integers: Rust `usize` values are modeled as `Nat`.
`usize::saturating_sub` coincides with truncated subtraction on `Nat`;
`usize::saturating_add` is modeled explicitly by `satAdd`, saturating at
`USIZE_MAX = 2 ^ 64 - 1` (the sentinel value used by the height-indexed
scroll scheme).

Effects: stateful Rust methods become functions from the old model to the
new model plus their return value. A Rust `panic!` (an `unwrap` of an
`Err`, or an out-of-range vector operation) is modeled by an `Option` or
`Except` result, `none` / `.error` meaning the routine aborted.
-/

namespace Multiverse

/-- Event identifiers (`ruma::OwnedEventId`) are opaque strings here. -/
abbrev EventId := String

/-- Largest value of a 64-bit Rust `usize`. -/
def USIZE_MAX : Nat := 2 ^ 64 - 1

/-- Rust `usize::saturating_add` for 64-bit `usize` modeled on `Nat`. -/
def satAdd (a b : Nat) : Nat := min (a + b) USIZE_MAX

/-- From `timeline.rs`: `const MINIMUM_NUMBER_OF_VISIBLE_ITEMS: usize = 3`. -/
def MINIMUM_NUMBER_OF_VISIBLE_ITEMS : Nat := 3

/-! Timeline items (`matrix_sdk_ui::timeline::TimelineItem`).  The dispatch
core only inspects whether an item is an event item, its optional event id
(`item.as_event()?.event_id()`), and whether its content is a message. -/

/-- A timeline item: an event item carrying an optional event id and a flag
for whether its content is a message, or a virtual item (date divider,
read marker, timeline start). -/
inductive TimelineItem where
  | event (event_id : Option EventId) (is_message : Bool)
  | virtualItem
  deriving DecidableEq, Repr

/-- Rust `item.as_event()?.event_id()`: `some` only for event items that
have an event id. -/
def TimelineItem.as_event_event_id : TimelineItem → Option EventId
  | .event event_id _ => event_id
  | .virtualItem => none

/-- Rust `self.items.iter().find_map(|item| item.as_event()?.event_id())`
(`timeline.rs`, the anchor passed to `reload_linked_chunks`): the first
event id of an event item, skipping virtual items and id-less events. -/
def first_timeline_event_id (items : List TimelineItem) : Option EventId :=
  items.findSome? TimelineItem.as_event_event_id

/-! Persisted chunks (`matrix_sdk::linked_chunk`). -/

/-- A persisted timeline event; the reconstructor only reads its optional
event id (`event.event_id()`). -/
structure TimelineEvent where
  event_id : Option EventId
  deriving DecidableEq, Repr

/-- A gap chunk's payload; `reload_linked_chunks` keeps only `prev_token`. -/
structure Gap where
  prev_token : String
  deriving DecidableEq, Repr

/-- `ChunkContent<TimelineEvent, G>`: either a run of events or a gap
payload of type `G` (the store yields `Gap`, the model keeps `String`). -/
inductive ChunkContent (G : Type) where
  | items (events : List TimelineEvent)
  | gap (g : G)
  deriving DecidableEq, Repr

/-- A chunk as loaded from the event cache store: a monotonically
increasing identifier plus content. -/
structure Chunk where
  identifier : Nat
  content : ChunkContent Gap
  deriving DecidableEq, Repr

/-- Type of `Model::linked_chunks` in `timeline.rs`:
`Vec<(ChunkIdentifier, ChunkContent<TimelineEvent, String>)>`. -/
abbrev LinkedChunks := List (Nat × ChunkContent String)

/-- Rust test inside the walk of `reload_linked_chunks`:
`events.iter().filter_map(|event| event.event_id()).any(|id| &id == first_event_id)`. -/
def chunkContainsEvent (first_event_id : EventId) (events : List TimelineEvent) : Bool :=
  (events.filterMap TimelineEvent.event_id).any (· == first_event_id)

/-- Whether a chunk is an item chunk whose records include the anchor; gap
chunks never contain the anchor (the walk does not inspect them). -/
def chunkContainsAnchor (a : EventId) (c : Chunk) : Bool :=
  match c.content with
  | .items events => chunkContainsEvent a events
  | .gap _ => false

/-- How a loaded chunk is pushed onto `linked_chunks`: item chunks
verbatim, gap chunks reduced to their continuation token `prev_token`. -/
def chunkToStored (c : Chunk) : Nat × ChunkContent String :=
  (c.identifier,
    match c.content with
    | .items events => .items events
    | .gap g => .gap g.prev_token)

/-- Loop body of `reload_linked_chunks` (`timeline.rs:598-626`), expressed
as structural recursion over the walk order.  The persisted store is a
linked chain `[C1 (head), …, Cn (tail)]`; `load_last_chunk` yields `Cn`
and `load_previous_chunk (identifier Ck)` yields `Ck₋₁` (none for the
head), so the `while let` loop visits exactly the elements of
`chain.reverse`, in order.  Each visited item chunk is pushed verbatim
(gap chunks reduced to their `prev_token`); the loop breaks immediately
after pushing an item chunk containing the anchor event. -/
def walk_chunks (first_event_id : EventId) : List Chunk → LinkedChunks
  | [] => []
  | chunk :: rest =>
    match chunk.content with
    | .items events =>
      let do_break := chunkContainsEvent first_event_id events
      (chunk.identifier, ChunkContent.items events) ::
        (if do_break then [] else walk_chunks first_event_id rest)
    | .gap g =>
      (chunk.identifier, ChunkContent.gap g.prev_token) :: walk_chunks first_event_id rest

/-- `reload_linked_chunks` (`timeline.rs:580-629`), chain view, with a
store that loads successfully.  The source first clears `linked_chunks`
(so the result does not depend on its previous contents), loads the tail
chunk, returns `None` with the cleared (empty) vector when no anchor event
id is known, and otherwise walks backward from the tail.  The result is
the new value of `linked_chunks` together with the `Option<()>` return
value. -/
def reload_linked_chunks (chain : List Chunk) (first_event_id : Option EventId) :
    LinkedChunks × Option Unit :=
  match first_event_id with
  | none => ([], none)
  | some fid => (walk_chunks fid chain.reverse, some ())

/-! Store-parameterized view of `reload_linked_chunks`, needed to settle
how the routine reacts to a *failing* store.  The real
`load_last_chunk` / `load_previous_chunk` return `Result<Option<_>, _>`;
the source calls `.unwrap()` on them, so an `Err` panics. -/

/-- The event cache store interface consumed by `reload_linked_chunks`:
both loaders may fail with an error of type `ε` or yield no chunk. -/
structure EventCacheStore (ε : Type) where
  load_last_chunk : Except ε (Option Chunk)
  load_previous_chunk : Nat → Except ε (Option Chunk)

/-- The `while let` loop of `reload_linked_chunks` over an abstract store.
`fuel` bounds the number of iterations (the Rust loop is unbounded; a
`none` result means the bound was exhausted before the loop settled).
A `some (.error e)` result models the panic of `.unwrap()` on a failed
`load_previous_chunk`: the routine aborts, losing the accumulator. -/
def walk_chunks_st {ε : Type} (store : EventCacheStore ε) (first_event_id : EventId) :
    Nat → Option Chunk → LinkedChunks → Option (Except ε LinkedChunks)
  | _, none, acc => some (.ok acc)
  | 0, some _, _ => none
  | fuel + 1, some chunk, acc =>
    match chunk.content with
    | .items events =>
      let do_break := chunkContainsEvent first_event_id events
      let acc := acc ++ [(chunk.identifier, ChunkContent.items events)]
      if do_break then some (.ok acc)
      else
        match store.load_previous_chunk chunk.identifier with
        | .error e => some (.error e)
        | .ok next => walk_chunks_st store first_event_id fuel next acc
    | .gap g =>
      let acc := acc ++ [(chunk.identifier, ChunkContent.gap g.prev_token)]
      match store.load_previous_chunk chunk.identifier with
      | .error e => some (.error e)
      | .ok next => walk_chunks_st store first_event_id fuel next acc

/-- `reload_linked_chunks` over an abstract store, mirroring the source
order: clear, `load_last_chunk` (unwrapped — an `Err` panics *before* the
anchor check), early `return None` when no anchor id is known, then the
backward walk.  `none` = iteration bound exhausted; `some (.error e)` =
the routine panicked on a failed load; `some (.ok (chunks, r))` = normal
return with the new `linked_chunks` and the `Option<()>` value. -/
def reload_linked_chunks_st {ε : Type} (store : EventCacheStore ε)
    (first_event_id : Option EventId) (fuel : Nat) :
    Option (Except ε (LinkedChunks × Option Unit)) :=
  match store.load_last_chunk with
  | .error e => some (.error e)
  | .ok next_chunk =>
    match first_event_id with
    | none => some (.ok ([], none))
    | some fid =>
      match walk_chunks_st store fid fuel next_chunk [] with
      | none => none
      | some (.error e) => some (.error e)
      | some (.ok chunks) => some (.ok (chunks, some ()))

/-- The store backed by a concrete chain `[C1 (head), …, Cn (tail)]`:
`load_last_chunk` yields the tail; `load_previous_chunk id` yields the
chunk immediately before the chunk identified by `id` (none for the
head).  This store never fails. -/
def load_previous_in (id : Nat) : List Chunk → Option Chunk
  | [] => none
  | [_] => none
  | c1 :: c2 :: rest =>
    if c2.identifier = id then some c1 else load_previous_in id (c2 :: rest)

/-- Chain-backed event cache store (total, never errors). -/
def chainStore (chain : List Chunk) : EventCacheStore Unit where
  load_last_chunk := .ok chain.getLast?
  load_previous_chunk := fun id => .ok (load_previous_in id chain)

/-! Diff operations (`eyeball_im::VectorDiff`) and their application. -/

/-- `VectorDiff<α>`: the tagged diff-operation variants. -/
inductive VectorDiff (α : Type) where
  | append (values : List α)
  | clear
  | pushFront (value : α)
  | pushBack (value : α)
  | popFront
  | popBack
  | insert (index : Nat) (value : α)
  | set (index : Nat) (value : α)
  | remove (index : Nat)
  | truncate (length : Nat)
  | reset (values : List α)
  deriving DecidableEq, Repr

/-- Whether a diff is an in-place `Set` (`matches!(diff, VectorDiff::Set { .. })`). -/
def VectorDiff.isSet {α : Type} : VectorDiff α → Bool
  | .set _ _ => true
  | _ => false

/-- `VectorDiff::apply` on an ordered sequence.  `Insert` with
`index > len`, and `Set` / `Remove` with `index ≥ len`, panic in the
underlying vector (`none`); `PopFront` / `PopBack` on an empty sequence
and `Truncate` beyond the length are no-ops. -/
def VectorDiff.apply {α : Type} : VectorDiff α → List α → Option (List α)
  | .append values, v => some (v ++ values)
  | .clear, _ => some []
  | .pushFront value, v => some (value :: v)
  | .pushBack value, v => some (v ++ [value])
  | .popFront, v => some v.tail
  | .popBack, v => some v.dropLast
  | .insert index value, v =>
    if index ≤ v.length then some (v.take index ++ value :: v.drop index) else none
  | .set index value, v => if index < v.length then some (v.set index value) else none
  | .remove index, v => if index < v.length then some (v.eraseIdx index) else none
  | .truncate length, v => some (v.take length)
  | .reset values, _ => some values

/-- Apply a batch of diffs strictly in order; a panic aborts the batch. -/
def applyDiffs {α : Type} : List (VectorDiff α) → List α → Option (List α)
  | [], v => some v
  | diff :: diffs, v =>
    match diff.apply v with
    | none => none
    | some v' => applyDiffs diffs v'

/-- Flag computed by the diff loop of `Message::Update`
(`timeline.rs:116-125`): set as soon as one diff is not a `Set`. -/
def recompute_linked_chunks_flag {α : Type} (diffs : List (VectorDiff α)) : Bool :=
  diffs.any (fun diff => !diff.isSet)

/-! Scroll and details state (`timeline.rs`). -/

/-- `timeline::Scroll` (the `End` variant is `end_`, `end` being a Lean
keyword). -/
inductive Scroll where
  | up
  | down
  | start
  | end_
  deriving DecidableEq, Repr

/-- `timeline::Details`: the details sub-mode selecting how the timeline
is rendered and which scroll scheme the offset uses. -/
inductive Details where
  | none
  | eventId
  | origin
  | linkedChunk
  deriving DecidableEq, Repr

/-- `update_scroll_position_for_timeline` (`timeline.rs:645-662`):
item-indexed scheme.  `saturating_sub` is `Nat` subtraction;
`saturating_add` is `satAdd`. -/
def update_scroll_position_for_timeline (scroll : Scroll) (scroll_position : Nat)
    (items : List TimelineItem) : Nat :=
  match scroll with
  | .up => min (items.length - MINIMUM_NUMBER_OF_VISIBLE_ITEMS) (satAdd scroll_position 1)
  | .down => min (items.length - MINIMUM_NUMBER_OF_VISIBLE_ITEMS) (scroll_position - 1)
  | .start => items.length - MINIMUM_NUMBER_OF_VISIBLE_ITEMS
  | .end_ => 0

/-- `update_scroll_position_for_linked_chunk` (`timeline.rs:664-676`):
height-indexed scheme; `Start` stores the `usize::MAX` sentinel, to be
clamped at render time. -/
def update_scroll_position_for_linked_chunk (scroll : Scroll) (scroll_position : Nat) : Nat :=
  match scroll with
  | .up => satAdd scroll_position 1
  | .down => scroll_position - 1
  | .start => USIZE_MAX
  | .end_ => 0

/-- The reset test of `Message::ShowDetails` (`timeline.rs:156-160`):
`matches!((&self.details, &details), (None | EventId, LinkedChunk) | (LinkedChunk, None | EventId))`.
Note that `Origin` appears in neither side of the pattern. -/
def detailsSwitchResets : Details → Details → Bool
  | .none, .linkedChunk => true
  | .eventId, .linkedChunk => true
  | .linkedChunk, .none => true
  | .linkedChunk, .eventId => true
  | _, _ => false

/-! The timeline model (`timeline::Model`) and its update function.
External handles (`timeline`, `client`, `room_id`, the background task
handle and the `Mutex` around the scroll position) are not data; the
remaining fields are modeled.  The chunk store reached through `client`
is passed explicitly as the chain it holds. -/

/-- State of `timeline::Model` (`timeline.rs:66-75`). -/
structure TimelineModel where
  items : List TimelineItem
  linked_chunks : LinkedChunks
  scroll_position : Nat
  details : Details
  deriving DecidableEq, Repr

/-- Fresh timeline model (`timeline::Model::new` with a live update task:
items start empty and are filled by `Message::Update` diffs). -/
def TimelineModel.new : TimelineModel :=
  { items := [], linked_chunks := [], scroll_position := 0, details := .none }

/-- `timeline::Message`. -/
inductive TimelineMessage where
  | update (diffs : List (VectorDiff TimelineItem))
  | scroll (s : Scroll)
  | paginateBackwards
  | showDetails (d : Details)
  | toggleReactionOnLastMessage
  deriving DecidableEq, Repr

/-- `timeline::Model::update` (`timeline.rs:111-184`).  Returns the new
model, the returned `Option<app::Message>` (always `none`: every branch
of the source falls through to `None` or early-returns `None`), and
whether a storage read (`reload_linked_chunks`) was performed.  A `none`
result is a panic (an out-of-range diff).  Remote calls
(`paginate_backwards`, `toggle_reaction`) are fire-and-forget requests
whose results the source drops or unwraps; they are modeled as
succeeding without touching the model. -/
def timelineUpdate (chain : List Chunk) (model : TimelineModel) :
    TimelineMessage → Option (TimelineModel × Option Unit × Bool)
  | .update diffs =>
    match applyDiffs diffs model.items with
    | none => none
    | some items =>
      let model := { model with items := items }
      if recompute_linked_chunks_flag diffs then
        let reloaded := reload_linked_chunks chain (first_timeline_event_id items)
        some ({ model with linked_chunks := reloaded.1 }, none, true)
      else
        some (model, none, false)
  | .scroll s =>
    let scroll_position :=
      match model.details with
      | .none | .eventId | .origin =>
        update_scroll_position_for_timeline s model.scroll_position model.items
      | .linkedChunk =>
        update_scroll_position_for_linked_chunk s model.scroll_position
    some ({ model with scroll_position := scroll_position }, none, false)
  | .paginateBackwards => some (model, none, false)
  | .showDetails d =>
    let model :=
      if detailsSwitchResets model.details d then { model with scroll_position := 0 } else model
    some ({ model with details := d }, none, false)
  | .toggleReactionOnLastMessage => some (model, none, false)

/-- Effect of `Model::render_linked_chunk` (`timeline.rs:280-300`) on the
stored scroll position: when the viewport is strictly taller than the
rendered text nothing is touched; otherwise the position is clamped to
`scroll_length = text_height - area_height` and written back. -/
def render_linked_chunk_scroll (text_height area_height scroll_position : Nat) : Nat :=
  if area_height > text_height then scroll_position
  else min scroll_position (text_height - area_height)

/-- `Model::render_linked_chunk` as a model transformer: only the
write-back of the clamped scroll position is state; the drawn text is
render output.  `text_height` is the height of the built chunk text,
`area_height` the viewport height. -/
def render_linked_chunk (model : TimelineModel) (text_height area_height : Nat) :
    TimelineModel :=
  { model with
    scroll_position :=
      render_linked_chunk_scroll text_height area_height model.scroll_position }

/-! The room model (`room.rs`), the mode sub-models (`mode/`), the mode
state machine and the top-level dispatcher (`app.rs`). -/

/-- An SDK room handle; the dispatch core only threads it around. -/
structure Room where
  room_id : String
  deriving DecidableEq, Repr

/-- A terminal key event; the dispatch core only distinguishes `Enter`,
printable characters (fed to text areas) and everything else. -/
inductive KeyEvent where
  | enter
  | char (c : Char)
  | other
  deriving DecidableEq, Repr

/-- Effect of `TextArea::handle_input` on the accumulated text.  The text
area widget is an external collaborator (`tui_textarea`); only the
accumulation of typed characters, which `input()` returns, is modeled. -/
def textareaHandleInput (key : KeyEvent) (text : String) : String :=
  match key with
  | .char c => text.push c
  | .enter => text.push '\n'
  | .other => text

/-- `room::Message`. -/
inductive RoomMessage where
  | updateMessage (key : KeyEvent)
  | sendMessage
  | timeline (m : TimelineMessage)
  | markAsRead
  | emptyEventCache
  deriving DecidableEq, Repr

/-- Whether a room message is the `UpdateMessage` variant. -/
def RoomMessage.isUpdateMessage : RoomMessage → Bool
  | .updateMessage _ => true
  | _ => false

/-- State of `room::Model` (`room.rs:26-30`): the room handle, the nested
timeline model, and the message text area (modeled as its text). -/
structure RoomModel where
  room : Room
  timeline : TimelineModel
  message_textarea : String
  deriving DecidableEq, Repr

/-- `room::Model::new`: fresh timeline model and empty text area. -/
def RoomModel.new (room : Room) : RoomModel :=
  { room := room, timeline := TimelineModel.new, message_textarea := "" }

/-- `mode::room_list::Message`. -/
inductive RoomListMessage where
  | updateFilter (key : KeyEvent)
  | updateRoomList (diffs : List (VectorDiff Room))
  | moveCursorUp
  | moveCursorDown
  | select
  deriving DecidableEq, Repr

/-- State of `mode::room_list::Model` (`room_list.rs:44-51`): the room
sequence (the per-room latest-event decoration fetched for rendering is
not modeled), the list cursor, the search text area, and the preview
timeline.  The background subscription handle and the filter controller
are external resources. -/
structure RoomListModel where
  rooms : List Room
  list_state_selected : Option Nat
  search_textarea : String
  selected_room_timeline : Option TimelineModel
  deriving DecidableEq, Repr

/-- Fresh room-list model (`mode::room_list::Model::new`): empty rooms,
no cursor, empty search, no preview. -/
def RoomListModel.new : RoomListModel :=
  { rooms := [], list_state_selected := none, search_textarea := "",
    selected_room_timeline := none }

/-- `ratatui::ListState::select_previous`. -/
def selectPrevious (selected : Option Nat) : Option Nat :=
  some (match selected with | none => USIZE_MAX | some i => i - 1)

/-- `ratatui::ListState::select_next`. -/
def selectNext (selected : Option Nat) : Option Nat :=
  some (match selected with | none => 0 | some i => satAdd i 1)

/-- `Model::update_selected_room_timeline` (`room_list.rs:185-191`): the
preview timeline follows the room under the cursor (`unwrap_or(0)`); its
initial item snapshot comes from an external subscription and is not
modeled. -/
def update_selected_room_timeline (model : RoomListModel) : RoomListModel :=
  { model with
    selected_room_timeline :=
      match model.rooms[model.list_state_selected.getD 0]? with
      | some _ => some TimelineModel.new
      | none => none }

/-- `mode::space::Message`. -/
inductive SpaceMessage where
  | openRoomList
  | startSyncService
  | stopSyncService
  | emptyEventCache
  | openLogger
  deriving DecidableEq, Repr

/-- `mode::space::Model` holds only external handles (client, sync
service, input sender); it has no own state. -/
structure SpaceModel where
  deriving DecidableEq, Repr

/-- `mode::logger::Scroll`. -/
inductive LoggerScroll where
  | up
  | down
  deriving DecidableEq, Repr

/-- `mode::logger::Message`. -/
inductive LoggerMessage where
  | openCommandPanel
  | scroll (s : LoggerScroll)
  | toggleFilters
  | focusFilter
  | increaseShownLogLevel
  | decreaseShownLogLevel
  deriving DecidableEq, Repr

/-- State of `mode::logger::Model` (`logger.rs:36-41`); the
`tui_logger` widget state and the background task handle are external. -/
structure LoggerModel where
  command_panel_is_opened : Bool
  filters_are_visible : Bool
  deriving DecidableEq, Repr

/-- Fresh logger model (`mode::logger::Model::new`). -/
def LoggerModel.new : LoggerModel :=
  { command_panel_is_opened := false, filters_are_visible := false }

/-- `mode::room::Model` (`mode/room.rs`): the help overlay's state. -/
structure RoomModeModel where
  has_room_opened : Bool
  deriving DecidableEq, Repr

/-- `app::Mode`: the mutually exclusive UI modes, each owning its
sub-model. -/
inductive Mode where
  | none
  | insert
  | space (m : SpaceModel)
  | roomList (m : RoomListModel)
  | room (m : RoomModeModel)
  | logger (m : LoggerModel)
  deriving DecidableEq, Repr

/-- Whether the active mode is `Space`. -/
def Mode.isSpace : Mode → Bool
  | .space _ => true
  | _ => false

/-- Whether the active mode is `RoomList`. -/
def Mode.isRoomList : Mode → Bool
  | .roomList _ => true
  | _ => false

/-- Whether the active mode is `Logger`. -/
def Mode.isLogger : Mode → Bool
  | .logger _ => true
  | _ => false

/-- `app::Message`: one variant per mode plus the top-level control
variants. -/
inductive AppMessage where
  | quit
  | openRoom (room : Room)
  | room (m : RoomMessage)
  | mode (m : Mode)
  | space (m : SpaceMessage)
  | roomList (m : RoomListMessage)
  | logger (m : LoggerMessage)
  deriving DecidableEq, Repr

/-- State of `app::Model` (`app.rs:47-54`); `input_sender`, `client` and
`sync_service` are external handles. -/
structure AppModel where
  exit : Bool
  mode : Mode
  room : Option RoomModel
  deriving DecidableEq, Repr

/-- `room::Model::update` (`room.rs:39-81`).  A `none` result is a panic
(out-of-range diff in a nested timeline update).  Outbound remote calls
(`send`, `mark_as_read`, event cache `clear`) are modeled as succeeding;
the source unwraps or ignores their results.  Every arm except
`UpdateMessage` falls through to `Some(app::Message::Mode(Mode::None))`. -/
def roomUpdate (chain : List Chunk) (model : RoomModel) :
    RoomMessage → Option (RoomModel × Option AppMessage)
  | .updateMessage key =>
    if key = .enter then some (model, some (.room .sendMessage))
    else
      some ({ model with message_textarea := textareaHandleInput key model.message_textarea },
        none)
  | .sendMessage =>
    let model := { model with message_textarea := "" }
    match timelineUpdate chain model.timeline (.scroll .end_) with
    | none => none
    | some (timeline, _, _) =>
      some ({ model with timeline := timeline }, some (.mode .none))
  | .timeline m =>
    match timelineUpdate chain model.timeline m with
    | none => none
    | some (timeline, _, _) =>
      some ({ model with timeline := timeline }, some (.mode .none))
  | .markAsRead => some (model, some (.mode .none))
  | .emptyEventCache => some (model, some (.mode .none))

/-- `mode::room_list::Model::update` (`room_list.rs:82-183`).  Filter
changes go to the external dynamic-entries controller; the mapping step
of `UpdateRoomList` (attaching the latest-event decoration) is the
identity on the modeled room data.  A `none` result is a panic
(out-of-range diff). -/
def roomListUpdate (model : RoomListModel) :
    RoomListMessage → Option (RoomListModel × Option AppMessage)
  | .updateFilter key =>
    some ({ model with search_textarea := textareaHandleInput key model.search_textarea }, none)
  | .updateRoomList diffs =>
    match applyDiffs diffs model.rooms with
    | none => none
    | some rooms =>
      let selected :=
        match model.list_state_selected with
        | none => some 0
        | some i => some i
      let model := { model with rooms := rooms, list_state_selected := selected }
      some (update_selected_room_timeline model, none)
  | .moveCursorUp =>
    let model := { model with list_state_selected := selectPrevious model.list_state_selected }
    some (update_selected_room_timeline model, none)
  | .moveCursorDown =>
    let model := { model with list_state_selected := selectNext model.list_state_selected }
    some (update_selected_room_timeline model, none)
  | .select =>
    match model.rooms[model.list_state_selected.getD 0]? with
    | none => some (model, none)
    | some room => some (model, some (.openRoom room))

/-- `mode::space::Model::update` (`space.rs:38-67`): every arm yields a
follow-up message; service start/stop and cache clearing are external
calls modeled as succeeding. -/
def spaceUpdate (model : SpaceModel) : SpaceMessage → SpaceModel × Option AppMessage
  | .openRoomList => (model, some (.mode (.roomList RoomListModel.new)))
  | .startSyncService => (model, some (.mode .none))
  | .stopSyncService => (model, some (.mode .none))
  | .emptyEventCache => (model, some (.mode .none))
  | .openLogger => (model, some (.mode (.logger LoggerModel.new)))

/-- `mode::logger::Model::update` (`logger.rs:58-98`): closes the command
panel first, applies the message (widget transitions are external state),
and always returns `None`. -/
def loggerUpdate (model : LoggerModel) : LoggerMessage → LoggerModel × Option AppMessage :=
  fun message =>
    let model := { model with command_panel_is_opened := false }
    match message with
    | .openCommandPanel => ({ model with command_panel_is_opened := true }, none)
    | .scroll _ => (model, none)
    | .toggleFilters => ({ model with filters_are_visible := !model.filters_are_visible }, none)
    | .focusFilter => (model, none)
    | .increaseShownLogLevel => (model, none)
    | .decreaseShownLogLevel => (model, none)

/-- `app::Model::update` (`app.rs:71-103`): the single dispatch match
over `(message, current mode)`.  `OpenRoom` resets the mode, subscribes
(external call) and replaces the room model; mode-scoped messages reach
their sub-model only when the matching mode is active, otherwise the
dispatcher falls through to `None` without touching the model.  A `none`
result is a panic inside a sub-update. -/
def appUpdate (chain : List Chunk) (model : AppModel) :
    AppMessage → Option (AppModel × Option AppMessage)
  | .quit => some ({ model with exit := true }, none)
  | .openRoom room =>
    some ({ model with mode := .none, room := some (RoomModel.new room) }, none)
  | .room m =>
    match model.room with
    | none => some (model, none)
    | some roomModel =>
      match roomUpdate chain roomModel m with
      | none => none
      | some (roomModel', message) => some ({ model with room := some roomModel' }, message)
  | .mode m => some ({ model with mode := m }, none)
  | .space m =>
    match model.mode with
    | .space spaceModel =>
      let r := spaceUpdate spaceModel m
      some ({ model with mode := .space r.1 }, r.2)
    | _ => some (model, none)
  | .roomList m =>
    match model.mode with
    | .roomList roomListModel =>
      match roomListUpdate roomListModel m with
      | none => none
      | some (roomListModel', message) =>
        some ({ model with mode := .roomList roomListModel' }, message)
    | _ => some (model, none)
  | .logger m =>
    match model.mode with
    | .logger loggerModel =>
      let r := loggerUpdate loggerModel m
      some ({ model with mode := .logger r.1 }, r.2)
    | _ => some (model, none)

/-- The trampoline loop of `App::run` (`app.rs:257-259`), bounded:
`updateChain chain fuel model msg` performs up to `fuel + 1` dispatch
steps, feeding each returned message back into `appUpdate`, and yields
the final model with the still-pending follow-up (`none` when the chain
drained within the bound).  A `none` result is a panic mid-chain. -/
def updateChain (chain : List Chunk) : Nat → AppModel → AppMessage →
    Option (AppModel × Option AppMessage)
  | 0, model, message => appUpdate chain model message
  | fuel + 1, model, message =>
    match appUpdate chain model message with
    | none => none
    | some (model', none) => some (model', none)
    | some (model', some message') => updateChain chain fuel model' message'

/-- Static bound on the length of the chain a message can start:
`Mode`, `Quit`, `OpenRoom` and `Logger` messages never chain;
`Space` and `RoomList` messages chain at most once; room messages chain
at most once (`SendMessage` and the rest) except `UpdateMessage`, which
can chain into `SendMessage` and then into the mode reset. -/
def AppMessage.chainBound : AppMessage → Nat
  | .quit => 1
  | .openRoom _ => 1
  | .mode _ => 1
  | .logger _ => 1
  | .space _ => 2
  | .roomList _ => 2
  | .room (.updateMessage _) => 3
  | .room _ => 2

/-! Concrete values used to evaluate the definitions on closed inputs. -/

/-- A chunk holding one event `"b"`, identifier `1`. -/
def exampleChunkB : Chunk :=
  { identifier := 1, content := .items [{ event_id := some "b" }] }

/-- A store whose first load already fails. -/
def errStore : EventCacheStore String :=
  { load_last_chunk := .error "io", load_previous_chunk := fun _ => .error "io" }

/-- A store holding no chunks at all (loads succeed with `none`). -/
def noChunkStore : EventCacheStore String :=
  { load_last_chunk := .ok none, load_previous_chunk := fun _ => .ok none }

/-- A store with a single chunk and a clean end of the walk. -/
def oneChunkThenNoneStore : EventCacheStore String :=
  { load_last_chunk := .ok (some exampleChunkB), load_previous_chunk := fun _ => .ok none }

/-- A store whose tail chunk loads but whose previous-chunk load fails. -/
def oneChunkThenErrorStore : EventCacheStore String :=
  { load_last_chunk := .ok (some exampleChunkB),
    load_previous_chunk := fun _ => .error "io" }

/-- A timeline model holding one virtual item. -/
def exampleTimelineModel : TimelineModel :=
  { items := [TimelineItem.event (some "a") true], linked_chunks := [],
    scroll_position := 0, details := .none }

/-- A timeline model in the chunk debug view with a non-trivial offset. -/
def exampleLinkedChunkModel : TimelineModel :=
  { items := [], linked_chunks := [], scroll_position := 5, details := .linkedChunk }

/-- An idle app model: no mode active, no room opened. -/
def exampleIdleModel : AppModel :=
  { exit := false, mode := .none, room := none }

/-- A room model for an opened room. -/
def exampleRoomModel : RoomModel := RoomModel.new { room_id := "!room" }

/-- A room-list sub-model with one room under the cursor. -/
def exampleRoomListModel : RoomListModel :=
  { rooms := [{ room_id := "!room" }], list_state_selected := some 0,
    search_textarea := "", selected_room_timeline := none }

/-- An app model sitting in the room list, ready to select. -/
def exampleSelectModel : AppModel :=
  { exit := false, mode := .roomList exampleRoomListModel, room := none }

/-- The app model after the select chain drained: mode reset, room open. -/
def exampleOpenedModel : AppModel :=
  { exit := false, mode := .none, room := some (RoomModel.new { room_id := "!room" }) }

/-! Supporting lemmas. -/

/-- The walk collects, in walk order, the prefix of the reversed chain up
to and including the first chunk whose item records contain the anchor,
or the whole reversed chain when no chunk contains it. -/
theorem walk_chunks_eq (a : EventId) (l : List Chunk) :
    walk_chunks a l =
      (if l.any (chunkContainsAnchor a)
       then l.take (l.findIdx (chunkContainsAnchor a) + 1)
       else l).map chunkToStored := by
  induction l with
  | nil => simp [walk_chunks]
  | cons c rest ih =>
    obtain ⟨id, content⟩ := c
    cases content with
    | items events =>
      by_cases hb : chunkContainsEvent a events
      · simp [walk_chunks, chunkContainsAnchor, hb, List.findIdx_cons, chunkToStored]
      · by_cases ha : rest.any (chunkContainsAnchor a) <;>
          simp [walk_chunks, chunkContainsAnchor, hb, ha, List.findIdx_cons, chunkToStored, ih]
    | gap g =>
      by_cases ha : rest.any (chunkContainsAnchor a) <;>
        simp [walk_chunks, chunkContainsAnchor, ha, List.findIdx_cons, chunkToStored, ih]

/-- A chunk whose identifier occurs nowhere in the tail of the scan has
no predecessor in the chain. -/
theorem load_previous_in_eq_none (id : Nat) (x : Chunk) (xs : List Chunk)
    (h : id ∉ xs.map Chunk.identifier) :
    load_previous_in id (x :: xs) = none := by
  induction xs generalizing x with
  | nil => rfl
  | cons y ys ih =>
    simp only [List.map_cons, List.mem_cons] at h
    push_neg at h
    rw [load_previous_in, if_neg (fun hy => h.1 hy.symm)]
    exact ih y (by simpa using h.2)

/-- On a chain with distinct identifiers decomposed as
`front ++ c :: back`, looking up the predecessor of `c` yields the last
element of `front` (none when `c` is the head). -/
theorem load_previous_in_decomp (front : List Chunk) (c : Chunk) (back : List Chunk)
    (hnd : ((front ++ c :: back).map Chunk.identifier).Nodup) :
    load_previous_in c.identifier (front ++ c :: back) = front.getLast? := by
  induction front with
  | nil =>
    simp only [List.nil_append, List.map_cons, List.nodup_cons] at hnd
    cases back with
    | nil => rfl
    | cons b back' => exact load_previous_in_eq_none c.identifier c (b :: back') hnd.1
  | cons f front' ih =>
    have hnd' : ((front' ++ c :: back).map Chunk.identifier).Nodup := by
      simp only [List.cons_append, List.map_cons, List.nodup_cons] at hnd
      exact hnd.2
    cases front' with
    | nil =>
      simp only [List.nil_append, List.cons_append]
      rw [load_previous_in, if_pos rfl]
      rfl
    | cons f2 front'' =>
      have hne : f2.identifier ≠ c.identifier := by
        simp only [List.cons_append, List.map_cons, List.map_append,
          List.nodup_cons] at hnd'
        intro he
        exact hnd'.1 (by
          rw [he]
          exact List.mem_append_right _ (List.mem_cons_self _ _))
      have hrec := ih hnd'
      simp only [List.cons_append] at hrec ⊢
      rw [load_previous_in, if_neg hne, hrec, List.getLast?_cons_cons]

/-- The store-parameterized walk over a chain-backed store agrees with
the chain-view walk: sitting on chunk `c` with `front` still ahead (the
chain being `front ++ c :: back`), it appends exactly the chain-view walk
of `c :: front.reverse`, for any sufficient iteration bound. -/
theorem walk_chunks_st_chain (l : List Chunk) (hnd : (l.map Chunk.identifier).Nodup)
    (fid : EventId) :
    ∀ (fuel : Nat) (front : List Chunk) (c : Chunk) (back : List Chunk),
    l = front ++ c :: back → front.length + 1 ≤ fuel → ∀ (acc : LinkedChunks),
    walk_chunks_st (chainStore l) fid fuel (some c) acc
      = some (.ok (acc ++ walk_chunks fid (c :: front.reverse))) := by
  intro fuel
  induction fuel with
  | zero =>
    intro front c back hdecomp hfuel acc
    omega
  | succ fuel ih =>
    intro front c back hdecomp hfuel acc
    have hprev : (chainStore l).load_previous_chunk c.identifier = .ok front.getLast? := by
      simp only [chainStore, Except.ok.injEq]
      rw [hdecomp]
      exact load_previous_in_decomp front c back (hdecomp ▸ hnd)
    rcases front.eq_nil_or_concat with hfront | ⟨front', p, hfront⟩
    · subst hfront
      have hlast : ([] : List Chunk).getLast? = none := rfl
      rcases hc : c.content with events | g
      · by_cases hb : chunkContainsEvent fid events = true
        · simp [walk_chunks_st, hc, hb, walk_chunks]
        · simp only [Bool.not_eq_true] at hb
          simp [walk_chunks_st, hc, hb, hprev, walk_chunks]
      · simp [walk_chunks_st, hc, hprev, walk_chunks]
    · rw [List.concat_eq_append] at hfront
      subst hfront
      have hlast : (front' ++ [p]).getLast? = some p := List.getLast?_concat _
      rw [hlast] at hprev
      have hdecomp' : l = front' ++ p :: (c :: back) := by
        rw [hdecomp]
        simp
      have hfuel' : front'.length + 1 ≤ fuel := by
        simp only [List.length_append, List.length_cons, List.length_nil] at hfuel
        omega
      have hrev : (front' ++ [p]).reverse = p :: front'.reverse := by simp
      rcases hc : c.content with events | g
      · by_cases hb : chunkContainsEvent fid events = true
        · simp [walk_chunks_st, hc, hb, walk_chunks, hrev]
        · simp only [Bool.not_eq_true] at hb
          have hrec := ih front' p (c :: back) hdecomp' hfuel'
            (acc ++ [(c.identifier, ChunkContent.items events)])
          simp only [walk_chunks_st, hc, hb, hprev, Bool.false_eq_true, if_false,
            walk_chunks, hrev] at hrec ⊢
          rw [hrec]
          simp
      · have hrec := ih front' p (c :: back) hdecomp' hfuel'
          (acc ++ [(c.identifier, ChunkContent.gap g.prev_token)])
        simp only [walk_chunks_st, hc, hprev, walk_chunks, hrev] at hrec ⊢
        rw [hrec]
        simp

/-- The store-parameterized embedding of `reload_linked_chunks`, run
against the store backed by a chain with distinct identifiers and enough
fuel, never panics and computes exactly the chain-view
`reload_linked_chunks` — justifying the chain view used by the
reconstruction contract. -/
theorem reload_linked_chunks_st_agrees_with_chain (l : List Chunk)
    (hnd : (l.map Chunk.identifier).Nodup) (anchor : Option EventId)
    (fuel : Nat) (hfuel : l.length ≤ fuel) :
    reload_linked_chunks_st (chainStore l) anchor fuel
      = some (.ok (reload_linked_chunks l anchor)) := by
  cases anchor with
  | none => simp [reload_linked_chunks_st, chainStore, reload_linked_chunks]
  | some fid =>
    rcases l.eq_nil_or_concat with hl | ⟨front, c, hl⟩
    · subst hl
      simp [reload_linked_chunks_st, chainStore, walk_chunks_st, reload_linked_chunks,
        walk_chunks]
    · rw [List.concat_eq_append] at hl
      have hlast : l.getLast? = some c := by rw [hl]; exact List.getLast?_concat _
      have hfuel' : front.length + 1 ≤ fuel := by
        rw [hl, List.length_append, List.length_cons, List.length_nil] at hfuel
        omega
      have hwalk := walk_chunks_st_chain l hnd fid fuel front c [] hl hfuel' []
      have hrev : c :: front.reverse = l.reverse := by rw [hl]; simp
      rw [hrev, List.nil_append] at hwalk
      unfold reload_linked_chunks_st
      rw [show (chainStore l).load_last_chunk = Except.ok (some c) by
            simp [chainStore, ← hlast]]
      simp [hwalk, reload_linked_chunks]

/-- Any single item-indexed scroll step lands at or below the clamp. -/
theorem update_scroll_position_for_timeline_le (items : List TimelineItem)
    (scroll_position : Nat) (s : Scroll) :
    update_scroll_position_for_timeline s scroll_position items
      ≤ items.length - MINIMUM_NUMBER_OF_VISIBLE_ITEMS := by
  cases s <;> simp only [update_scroll_position_for_timeline] <;> omega

/-- Folding any sequence of item-indexed scroll steps stays at or below
the clamp once the accumulator is. -/
theorem foldl_update_scroll_position_le (items : List TimelineItem) (ops : List Scroll)
    (p : Nat) (hp : p ≤ items.length - MINIMUM_NUMBER_OF_VISIBLE_ITEMS) :
    ops.foldl (fun q op => update_scroll_position_for_timeline op q items) p
      ≤ items.length - MINIMUM_NUMBER_OF_VISIBLE_ITEMS := by
  induction ops generalizing p with
  | nil => simpa using hp
  | cons op ops ih =>
    exact ih _ (update_scroll_position_for_timeline_le items p op)

/-- The diff-loop flag is set exactly when not every diff is a `Set`. -/
theorem recompute_linked_chunks_flag_eq {α : Type} (diffs : List (VectorDiff α)) :
    recompute_linked_chunks_flag diffs = !diffs.all VectorDiff.isSet := by
  induction diffs with
  | nil => rfl
  | cons d ds ih =>
    simp [recompute_linked_chunks_flag, List.any_cons, List.all_cons, Bool.not_and] at ih ⊢
    rw [ih]

/-! Claim theorems. -/

/-- C1: `reload_linked_chunks` clears the previous result and walks the
chain `[C1 (head), …, Cn (tail)]` backward from the tail: with no anchor
the result is empty (and the routine returns `None`); with anchor `a` the
result is the reversed chain truncated right after the first chunk (in
walk order) whose item records contain `a` — i.e. `[Cn, …, Ck]` when `a`
lives in `Ck` — or the full reversed chain `[Cn, …, C1]` when no chunk
contains `a`; item chunks are kept verbatim and gap chunks are reduced to
their continuation token (`chunkToStored`). -/
theorem reload_linked_chunks_contract (chain : List Chunk) (anchor : Option EventId) :
    reload_linked_chunks chain anchor =
      match anchor with
      | none => ([], none)
      | some a =>
        ((if chain.reverse.any (chunkContainsAnchor a)
          then chain.reverse.take (chain.reverse.findIdx (chunkContainsAnchor a) + 1)
          else chain.reverse).map chunkToStored,
         some ()) := by
  cases anchor with
  | none => rfl
  | some a => simp [reload_linked_chunks, walk_chunks_eq]

/-- C4: every item-indexed scroll step (`Up`, `Down`, `Start`, `End`)
lands inside `[0, max (0, N - MINIMUM_NUMBER_OF_VISIBLE_ITEMS)]` (on
`Nat`, truncated subtraction is exactly `max 0 (N - 3)`), whatever the
starting offset; `Start` yields the upper clamp and `End` yields `0`; and
the invariant is preserved by any further sequence of scroll steps. -/
theorem update_scroll_position_for_timeline_invariant (items : List TimelineItem)
    (scroll_position : Nat) (s : Scroll) (ops : List Scroll) :
    update_scroll_position_for_timeline s scroll_position items
        ≤ items.length - MINIMUM_NUMBER_OF_VISIBLE_ITEMS
    ∧ update_scroll_position_for_timeline .start scroll_position items
        = items.length - MINIMUM_NUMBER_OF_VISIBLE_ITEMS
    ∧ update_scroll_position_for_timeline .end_ scroll_position items = 0
    ∧ ops.foldl (fun q op => update_scroll_position_for_timeline op q items)
        (update_scroll_position_for_timeline s scroll_position items)
        ≤ items.length - MINIMUM_NUMBER_OF_VISIBLE_ITEMS :=
  ⟨update_scroll_position_for_timeline_le items scroll_position s, rfl, rfl,
    foldl_update_scroll_position_le items ops _
      (update_scroll_position_for_timeline_le items scroll_position s)⟩

/-- C2 (evaluation at the failing input): switching the details sub-mode
between `Origin` and `LinkedChunk` — in either direction — does *not*
reset the scroll offset: the `ShowDetails` reset pattern in the source
lists only `None` and `EventId` against `LinkedChunk`, so an offset of
`7` survives the scheme switch unchanged, while the claim (and
spec section 4.2 and the testable property of section 8) requires it to
become `0`. -/
theorem show_details_origin_linked_chunk_keeps_offset :
    timelineUpdate []
        { items := [], linked_chunks := [], scroll_position := 7, details := .origin }
        (.showDetails .linkedChunk)
      = some ({ items := [], linked_chunks := [], scroll_position := 7,
                details := .linkedChunk }, none, false)
    ∧ timelineUpdate []
        { items := [], linked_chunks := [], scroll_position := 7, details := .linkedChunk }
        (.showDetails .origin)
      = some ({ items := [], linked_chunks := [], scroll_position := 7,
                details := .origin }, none, false) :=
  ⟨rfl, rfl⟩

/-- C8: in the height-indexed scheme `Scroll::Start` stores the reserved
sentinel `usize::MAX`; at render time (viewport not taller than the
text) the offset is clamped to the scroll length
`text_height - area_height` and written back, so the stored position
after rendering is the clamped value — in particular `Start` followed by
a render stores exactly the scroll length — and a subsequent `Up` delta
composes from that clamped value. -/
theorem linked_chunk_scroll_sentinel_and_render_clamp (model : TimelineModel)
    (text_height area_height : Nat) (h : area_height ≤ text_height)
    (hmax : text_height ≤ USIZE_MAX) :
    update_scroll_position_for_linked_chunk .start model.scroll_position = USIZE_MAX
    ∧ (render_linked_chunk model text_height area_height).scroll_position
        = min model.scroll_position (text_height - area_height)
    ∧ (render_linked_chunk model text_height area_height).scroll_position
        ≤ text_height - area_height
    ∧ (render_linked_chunk
          { model with scroll_position :=
              update_scroll_position_for_linked_chunk .start model.scroll_position }
          text_height area_height).scroll_position
        = text_height - area_height
    ∧ update_scroll_position_for_linked_chunk .up
          ((render_linked_chunk model text_height area_height).scroll_position)
        = satAdd (min model.scroll_position (text_height - area_height)) 1 := by
  have hng : ¬ (area_height > text_height) := not_lt.mpr h
  refine ⟨rfl, ?_, ?_, ?_, ?_⟩ <;>
    simp only [render_linked_chunk, render_linked_chunk_scroll,
      update_scroll_position_for_linked_chunk, satAdd, hng, if_false, if_neg hng]
  · omega
  · unfold USIZE_MAX at hmax ⊢
    omega

/-- C8 witness: a concrete offset `5`, text height `10`, viewport `4`. -/
theorem linked_chunk_scroll_sentinel_and_render_clamp_witness :
    update_scroll_position_for_linked_chunk .start (5 : Nat) = USIZE_MAX
    ∧ (render_linked_chunk exampleLinkedChunkModel 10 4).scroll_position = min 5 (10 - 4)
    ∧ (render_linked_chunk exampleLinkedChunkModel 10 4).scroll_position ≤ 10 - 4
    ∧ (render_linked_chunk
          { exampleLinkedChunkModel with scroll_position :=
              update_scroll_position_for_linked_chunk .start (5 : Nat) }
          10 4).scroll_position = 10 - 4
    ∧ update_scroll_position_for_linked_chunk .up
          ((render_linked_chunk exampleLinkedChunkModel 10 4).scroll_position)
        = satAdd (min 5 (10 - 4)) 1 :=
  linked_chunk_scroll_sentinel_and_render_clamp exampleLinkedChunkModel 10 4
    (by decide) (by decide)

/-- C3 (counterexample): with a store whose tail chunk loads (one item
chunk, not containing the anchor `"a"`) but whose `load_previous_chunk`
fails, the routine does not keep the chunk collected so far: the
`.unwrap()` panic aborts it (`.error`), instead of the graceful result
the claim predicts. -/
theorem reload_linked_chunks_st_error_aborts :
    reload_linked_chunks_st oneChunkThenErrorStore (some "a") 10 = some (.error "io")
    ∧ reload_linked_chunks_st oneChunkThenErrorStore (some "a") 10
        ≠ some (.ok ([(1, ChunkContent.items [{ event_id := some "b" }])], some ())) := by
  refine ⟨rfl, ?_⟩
  intro hcontra
  rw [show reload_linked_chunks_st oneChunkThenErrorStore (some "a") 10
        = some (Except.error "io") from rfl] at hcontra
  injection hcontra with h2
  exact Except.noConfusion h2

/-- C3 (amended): a load that yields *no chunk* (`Ok(None)`) is treated
as "no further chunks" — the walk stops and the chunks collected so far
are kept — but a load that returns an `Err` is unwrapped and panics,
aborting the routine instead of degrading gracefully: before the walk for
`load_last_chunk`, and mid-walk for `load_previous_chunk`. -/
theorem reload_linked_chunks_st_failure_behaviour {ε : Type} (store : EventCacheStore ε)
    (fid : EventId) (fuel : Nat) (e : ε) (c : Chunk) (events : List TimelineEvent) :
    (store.load_last_chunk = .error e →
      reload_linked_chunks_st store (some fid) fuel = some (.error e))
    ∧ (store.load_last_chunk = .ok none →
      reload_linked_chunks_st store (some fid) fuel = some (.ok ([], some ())))
    ∧ (store.load_last_chunk = .ok (some c) → c.content = .items events →
      chunkContainsEvent fid events = false →
      store.load_previous_chunk c.identifier = .ok none →
      reload_linked_chunks_st store (some fid) (fuel + 1)
        = some (.ok ([(c.identifier, .items events)], some ())))
    ∧ (store.load_last_chunk = .ok (some c) → c.content = .items events →
      chunkContainsEvent fid events = false →
      store.load_previous_chunk c.identifier = .error e →
      reload_linked_chunks_st store (some fid) (fuel + 1) = some (.error e)) := by
  refine ⟨?_, ?_, ?_, ?_⟩
  · intro h
    simp [reload_linked_chunks_st, h]
  · intro h
    simp [reload_linked_chunks_st, h, walk_chunks_st]
  · intro h hc hb hp
    simp [reload_linked_chunks_st, h, walk_chunks_st, hc, hb, hp]
  · intro h hc hb hp
    simp [reload_linked_chunks_st, h, walk_chunks_st, hc, hb, hp]

/-- C3 witness: the four failure-mode behaviours at concrete stores. -/
theorem reload_linked_chunks_st_failure_behaviour_witness :
    reload_linked_chunks_st errStore (some "a") 5 = some (.error "io")
    ∧ reload_linked_chunks_st noChunkStore (some "a") 5 = some (.ok ([], some ()))
    ∧ reload_linked_chunks_st oneChunkThenNoneStore (some "a") 6
        = some (.ok ([(1, ChunkContent.items [{ event_id := some "b" }])], some ()))
    ∧ reload_linked_chunks_st oneChunkThenErrorStore (some "a") 6 = some (.error "io") :=
  ⟨(reload_linked_chunks_st_failure_behaviour errStore "a" 5 "io" exampleChunkB []).1 rfl,
   (reload_linked_chunks_st_failure_behaviour noChunkStore "a" 5 "io" exampleChunkB []).2.1 rfl,
   (reload_linked_chunks_st_failure_behaviour oneChunkThenNoneStore "a" 5 "io" exampleChunkB
      [{ event_id := some "b" }]).2.2.1 rfl rfl (by decide) rfl,
   (reload_linked_chunks_st_failure_behaviour oneChunkThenErrorStore "a" 5 "io" exampleChunkB
      [{ event_id := some "b" }]).2.2.2 rfl rfl (by decide) rfl⟩

/-- C5: processing `Message::Update(diffs)` applies the batch in order
and re-runs the chunk reconstruction iff the batch contains at least one
diff that is not an in-place `Set`: an all-`Set` batch leaves
`linked_chunks` unchanged and performs no storage read (flag `false`),
while any other batch replaces `linked_chunks` with the result of
`reload_linked_chunks` (flag `true`). -/
theorem timeline_update_reloads_iff_structural (chain : List Chunk) (model : TimelineModel)
    (diffs : List (VectorDiff TimelineItem)) (items' : List TimelineItem)
    (h : applyDiffs diffs model.items = some items') :
    timelineUpdate chain model (.update diffs) =
      if diffs.all VectorDiff.isSet then
        some ({ model with items := items' }, none, false)
      else
        some ({ model with
                  items := items',
                  linked_chunks :=
                    (reload_linked_chunks chain (first_timeline_event_id items')).1 },
          none, true) := by
  cases hall : diffs.all VectorDiff.isSet <;>
    simp [timelineUpdate, h, recompute_linked_chunks_flag_eq, hall]

/-- C5 witness: a pure `Set` batch on a one-item timeline. -/
theorem timeline_update_reloads_iff_structural_witness :
    timelineUpdate [] exampleTimelineModel
        (.update [VectorDiff.set 0 TimelineItem.virtualItem]) =
      if [VectorDiff.set 0 TimelineItem.virtualItem].all VectorDiff.isSet then
        some ({ exampleTimelineModel with items := [TimelineItem.virtualItem] }, none, false)
      else
        some ({ exampleTimelineModel with
                  items := [TimelineItem.virtualItem],
                  linked_chunks :=
                    (reload_linked_chunks []
                      (first_timeline_event_id [TimelineItem.virtualItem])).1 },
          none, true) :=
  timeline_update_reloads_iff_structural [] exampleTimelineModel
    [VectorDiff.set 0 TimelineItem.virtualItem] [TimelineItem.virtualItem] rfl

/-! Follow-up shape lemmas for the chain-termination argument. -/

/-- The room update only ever chains into `SendMessage` (from an `Enter`
keystroke) or into the mode reset. -/
theorem roomUpdate_followUp_shape (chain : List Chunk) (model : RoomModel)
    (m : RoomMessage) (model' : RoomModel) (msg : Option AppMessage)
    (h : roomUpdate chain model m = some (model', msg)) :
    msg = none ∨ msg = some (.mode .none)
      ∨ (m.isUpdateMessage = true ∧ msg = some (.room .sendMessage)) := by
  cases m with
  | updateMessage key =>
    by_cases hk : key = KeyEvent.enter <;>
      simp [roomUpdate, hk, RoomMessage.isUpdateMessage] at h ⊢ <;>
      simp [← h.2]
  | sendMessage =>
    rcases ht : timelineUpdate chain
        { model with message_textarea := "" }.timeline (.scroll .end_) with _ | ⟨tl, r, b⟩ <;>
      simp [roomUpdate, ht] at h
    simp [← h.2]
  | timeline tm =>
    rcases ht : timelineUpdate chain model.timeline tm with _ | ⟨tl, r, b⟩ <;>
      simp [roomUpdate, ht] at h
    simp [← h.2]
  | markAsRead => simp [roomUpdate] at h; simp [← h.2]
  | emptyEventCache => simp [roomUpdate] at h; simp [← h.2]

/-- The room-list update only ever chains into `OpenRoom`. -/
theorem roomListUpdate_followUp_shape (model : RoomListModel) (m : RoomListMessage)
    (model' : RoomListModel) (msg : Option AppMessage)
    (h : roomListUpdate model m = some (model', msg)) :
    msg = none ∨ ∃ r, msg = some (.openRoom r) := by
  cases m with
  | updateFilter key => simp [roomListUpdate] at h; simp [← h.2]
  | updateRoomList diffs =>
    rcases ha : applyDiffs diffs model.rooms with _ | rooms <;>
      simp [roomListUpdate, ha] at h
    simp [← h.2]
  | moveCursorUp => simp [roomListUpdate] at h; simp [← h.2]
  | moveCursorDown => simp [roomListUpdate] at h; simp [← h.2]
  | select =>
    rcases hg : model.rooms[model.list_state_selected.getD 0]? with _ | room <;>
      simp [roomListUpdate, hg] at h
    · simp [← h.2]
    · exact Or.inr ⟨room, h.2.symm⟩

/-- The space update always chains into a mode change. -/
theorem spaceUpdate_followUp_shape (model : SpaceModel) (m : SpaceMessage) :
    ∃ mo, (spaceUpdate model m).2 = some (.mode mo) := by
  cases m <;> exact ⟨_, rfl⟩

/-- The logger update never chains. -/
theorem loggerUpdate_followUp_none (model : LoggerModel) (m : LoggerMessage) :
    (loggerUpdate model m).2 = none := by
  cases m <;> rfl

/-- Every message admits a positive chain bound. -/
theorem AppMessage.chainBound_pos (message : AppMessage) : 1 ≤ message.chainBound := by
  cases message with
  | room m => cases m <;> simp [chainBound]
  | quit => simp [chainBound]
  | openRoom r => simp [chainBound]
  | mode m => simp [chainBound]
  | space m => simp [chainBound]
  | roomList m => simp [chainBound]
  | logger m => simp [chainBound]

/-- Every message's chain bound is at most 3. -/
theorem AppMessage.chainBound_le_three (message : AppMessage) : message.chainBound ≤ 3 := by
  cases message with
  | room m => cases m <;> simp [chainBound]
  | quit => simp [chainBound]
  | openRoom r => simp [chainBound]
  | mode m => simp [chainBound]
  | space m => simp [chainBound]
  | roomList m => simp [chainBound]
  | logger m => simp [chainBound]

/-- Dispatching strictly decreases the chain bound of the pending
message: every follow-up a dispatch step emits has a smaller bound. -/
theorem appUpdate_followUp_chainBound_lt (chain : List Chunk) (model : AppModel)
    (message : AppMessage) (model' : AppModel) (message' : AppMessage)
    (h : appUpdate chain model message = some (model', some message')) :
    message'.chainBound < message.chainBound := by
  cases message with
  | quit => simp [appUpdate] at h
  | openRoom r => simp [appUpdate] at h
  | mode m => simp [appUpdate] at h
  | room m =>
    rcases hr : model.room with _ | roomModel
    · simp [appUpdate, hr] at h
    · rcases hru : roomUpdate chain roomModel m with _ | ⟨roomModel', msg⟩ <;>
        simp [appUpdate, hr, hru] at h
      rcases roomUpdate_followUp_shape chain roomModel m roomModel' msg hru with
        hmsg | hmsg | ⟨hup, hmsg⟩ <;> subst hmsg
      · simp at h
      · obtain ⟨-, h2⟩ := h
        injection h2 with h2
        subst h2
        cases m <;> simp [AppMessage.chainBound]
      · obtain ⟨-, h2⟩ := h
        injection h2 with h2
        subst h2
        cases m <;> simp [RoomMessage.isUpdateMessage] at hup ⊢
        simp [AppMessage.chainBound]
  | space m =>
    rcases hm : model.mode with _ | _ | spaceModel | rlModel | rModel | lModel <;>
      simp [appUpdate, hm] at h
    obtain ⟨mo, hmo⟩ := spaceUpdate_followUp_shape spaceModel m
    rw [hmo] at h
    obtain ⟨-, h2⟩ := h
    injection h2 with h2
    subst h2
    cases m <;> simp [AppMessage.chainBound]
  | roomList m =>
    rcases hm : model.mode with _ | _ | spaceModel | rlModel | rModel | lModel <;>
      simp [appUpdate, hm] at h
    rcases hru : roomListUpdate rlModel m with _ | ⟨rlModel', msg⟩ <;>
      simp [hru] at h
    rcases roomListUpdate_followUp_shape rlModel m rlModel' msg hru with hmsg | ⟨r, hmsg⟩ <;>
      subst hmsg
    · simp at h
    · obtain ⟨-, h2⟩ := h
      injection h2 with h2
      subst h2
      cases m <;> simp [AppMessage.chainBound]
  | logger m =>
    rcases hm : model.mode with _ | _ | spaceModel | rlModel | rModel | lModel <;>
      simp [appUpdate, hm] at h
    rw [loggerUpdate_followUp_none lModel m] at h
    simp at h

/-- Bounded-fuel version of chain termination: when the pending message's
static bound fits in the fuel, the chain drains. -/
theorem updateChain_bounded (chain : List Chunk) (fuel : Nat) (model : AppModel)
    (message : AppMessage) (hb : message.chainBound ≤ fuel + 1)
    (model' : AppModel) (pending : Option AppMessage)
    (h : updateChain chain fuel model message = some (model', pending)) :
    pending = none := by
  induction fuel generalizing model message model' pending with
  | zero =>
    rcases pending with _ | message'
    · rfl
    · have hlt := appUpdate_followUp_chainBound_lt chain model message model' message' h
      have hpos := AppMessage.chainBound_pos message'
      omega
  | succ fuel ih =>
    rcases ha : appUpdate chain model message with _ | ⟨model₁, msg₁⟩ <;>
      simp [updateChain, ha] at h
    rcases msg₁ with _ | message₁
    · simp at h
      exact h.2.symm
    · simp at h
      have hlt := appUpdate_followUp_chainBound_lt chain model message model₁ message₁ ha
      exact ih model₁ message₁ (by omega) model' pending h

/-- C6: message chaining terminates within a uniform bound: for every
model and every message, after at most three dispatch steps (`updateChain`
with fuel 2) the pending follow-up is `none` — so in particular the
room-selection chain `Select → OpenRoom → done` drains within three
steps. -/
theorem message_chain_terminates (chain : List Chunk) (model : AppModel)
    (message : AppMessage) (model' : AppModel) (pending : Option AppMessage)
    (h : updateChain chain 2 model message = some (model', pending)) :
    pending = none :=
  updateChain_bounded chain 2 model message
    (by have := AppMessage.chainBound_le_three message; omega) model' pending h

/-- C6 witness: the select chain from a one-room room list drains to
`none` within the bound, opening the room and resetting the mode. -/
theorem message_chain_terminates_witness :
    updateChain [] 2 exampleSelectModel (.roomList .select)
        = some (exampleOpenedModel, none)
    ∧ (none : Option AppMessage) = none :=
  ⟨rfl, message_chain_terminates [] exampleSelectModel (.roomList .select)
      exampleOpenedModel none rfl⟩

/-- C7: a mode-scoped message whose variant does not match the active
mode — a `Space` message outside `Space` mode, a `RoomList` message
outside `RoomList` mode, a `Logger` message outside `Logger` mode — is
silently ignored: the dispatcher returns no follow-up and the entire
model is unchanged. -/
theorem unmatched_mode_scoped_message_ignored (chain : List Chunk) (model : AppModel)
    (sm : SpaceMessage) (rlm : RoomListMessage) (lm : LoggerMessage) :
    (model.mode.isSpace = false → appUpdate chain model (.space sm) = some (model, none))
    ∧ (model.mode.isRoomList = false →
        appUpdate chain model (.roomList rlm) = some (model, none))
    ∧ (model.mode.isLogger = false →
        appUpdate chain model (.logger lm) = some (model, none)) := by
  refine ⟨?_, ?_, ?_⟩ <;> intro h <;>
    rcases hm : model.mode with _ | _ | spaceModel | rlModel | rModel | lModel <;>
    simp [Mode.isSpace, Mode.isRoomList, Mode.isLogger, hm] at h <;>
    simp [appUpdate, hm]

/-- C7 witness: the three unmatched combinations in the idle model. -/
theorem unmatched_mode_scoped_message_ignored_witness :
    appUpdate [] exampleIdleModel (.space .openRoomList) = some (exampleIdleModel, none)
    ∧ appUpdate [] exampleIdleModel (.roomList .select) = some (exampleIdleModel, none)
    ∧ appUpdate [] exampleIdleModel (.logger .openCommandPanel)
        = some (exampleIdleModel, none) :=
  ⟨(unmatched_mode_scoped_message_ignored [] exampleIdleModel .openRoomList .select
      .openCommandPanel).1 rfl,
   (unmatched_mode_scoped_message_ignored [] exampleIdleModel .openRoomList .select
      .openCommandPanel).2.1 rfl,
   (unmatched_mode_scoped_message_ignored [] exampleIdleModel .openRoomList .select
      .openCommandPanel).2.2 rfl⟩

/-- C9: every room-scoped message except `UpdateMessage` — timeline diff
updates, scrolls, `SendMessage`, `MarkAsRead`, `EmptyEventCache` — makes
the room update return `Some(Message::Mode(Mode::None))`, chaining into a
reset of the active mode. -/
theorem room_update_resets_mode (chain : List Chunk) (model : RoomModel)
    (message : RoomMessage) (hnot : message.isUpdateMessage = false)
    (model' : RoomModel) (followUp : Option AppMessage)
    (h : roomUpdate chain model message = some (model', followUp)) :
    followUp = some (.mode .none) := by
  rcases roomUpdate_followUp_shape chain model message model' followUp h with
    hmsg | hmsg | ⟨hup, hmsg⟩
  · subst hmsg
    cases message with
    | updateMessage key => simp [RoomMessage.isUpdateMessage] at hnot
    | sendMessage =>
      rcases ht : timelineUpdate chain
          { model with message_textarea := "" }.timeline (.scroll .end_) with _ | ⟨tl, r, b⟩ <;>
        simp [roomUpdate, ht] at h
    | timeline tm =>
      rcases ht : timelineUpdate chain model.timeline tm with _ | ⟨tl, r, b⟩ <;>
        simp [roomUpdate, ht] at h
    | markAsRead => simp [roomUpdate] at h
    | emptyEventCache => simp [roomUpdate] at h
  · exact hmsg
  · rw [hup] at hnot
    exact absurd hnot (by simp)

/-- C9 witness: `MarkAsRead` on a fresh room model. -/
theorem room_update_resets_mode_witness :
    (some (AppMessage.mode Mode.none) : Option AppMessage) = some (.mode .none) :=
  room_update_resets_mode [] exampleRoomModel .markAsRead rfl exampleRoomModel
    (some (.mode .none)) rfl

end Multiverse
